import Mathlib

/-!
Verification of the `kata-asm` assembler interpreter.

This file gives a shallow embedding of the interpreter in `src/part_2.py`
(class `Interpreter` plus the module-level `assembler_interpreter`) and of the
duplicated variant in `src/kata/part_2_kata.py`, and proves properties of the
embedding.  Python integers are modelled as `Int` (arbitrary precision),
Python `None` as `Option.none`, Python dictionaries as association lists with
front insertion (so the most recent assignment to a key shadows older ones,
matching dict overwrite), and uncaught Python exceptions as `Except.error`.
-/

/-- The uncaught Python exceptions the interpreter can raise. -/
inductive Err where
  /-- `KeyError`: dict lookup of a missing key (register or label or opcode). -/
  | keyError
  /-- `TypeError`: arithmetic or comparison involving `None`, or calling a
  handler with the wrong number of arguments. -/
  | typeError
  /-- `ZeroDivisionError`: `//` by zero. -/
  | zeroDivisionError
  /-- `IndexError`: `list.pop()` on an empty list, or `args[0]` on `[]`. -/
  | indexError
  deriving DecidableEq, Repr

/-- The single-quote character, written via its code point. -/
def quoteChar : Char := Char.ofNat 39

/-- Python `str.isspace` on the ASCII whitespace used by `str.strip()`. -/
def isPySpace (c : Char) : Bool :=
  c = ' ' || c = Char.ofNat 9 || c = Char.ofNat 10 || c = Char.ofNat 11 ||
  c = Char.ofNat 12 || c = Char.ofNat 13

/-- ASCII digit test (Python `str.isdigit` restricted to ASCII, and
`string.digits` membership). -/
def isAsciiDigit (c : Char) : Bool := '0' ≤ c && c ≤ '9'

/-- `valid_symbol` from `parse_instruction`: membership in
`ascii_letters + '_' + digits`. -/
def validSymbol (c : Char) : Bool :=
  ('a' ≤ c && c ≤ 'z') || ('A' ≤ c && c ≤ 'Z') || c = '_' || isAsciiDigit c

/-- Python `str.strip()` on a character list: drop whitespace at both ends. -/
def pyStripList (l : List Char) : List Char :=
  ((l.dropWhile isPySpace).reverse.dropWhile isPySpace).reverse

/-- Python `str.strip()`. -/
def pyStrip (s : String) : String := String.mk (pyStripList s.toList)

/-- Worker for `str.splitlines`: accumulates the current line (reversed). -/
def splitlinesAux : List Char → List Char → List String
  | [], acc => if acc.isEmpty then [] else [String.mk acc.reverse]
  | [c], acc =>
    if c = Char.ofNat 13 ∨ c = Char.ofNat 10 then [String.mk acc.reverse]
    else [String.mk (c :: acc).reverse]
  | c :: d :: rest, acc =>
    if c = Char.ofNat 13 then
      if d = Char.ofNat 10 then String.mk acc.reverse :: splitlinesAux rest []
      else String.mk acc.reverse :: splitlinesAux (d :: rest) []
    else if c = Char.ofNat 10 then String.mk acc.reverse :: splitlinesAux (d :: rest) []
    else splitlinesAux (d :: rest) (c :: acc)

/-- Python `str.splitlines()` for the line terminators `\n`, `\r`, `\r\n`
(the ones that can occur in this repository's programs): no trailing empty
line for a trailing terminator, `""` gives `[]`. -/
def pySplitlines (s : String) : List String := splitlinesAux s.toList []

/-- Python `''.join(l)`: plain concatenation. -/
def pyJoin : List String → String
  | [] => ""
  | s :: rest => s ++ pyJoin rest

/-- Python dict assignment `d[k] = v`, modelled by front insertion: lookups
find the most recent binding, so assignment overwrites. -/
def dictInsert {α : Type} (k : String) (v : α) (d : List (String × α)) :
    List (String × α) := (k, v) :: d

/-- Python dict lookup `d.get(k)` / `d[k]`-as-Option: first (most recent)
binding wins. -/
def dictGet {α : Type} (k : String) : List (String × α) → Option α
  | [] => none
  | (k', v) :: rest => if k' = k then some v else dictGet k rest

/-- Well-formedness of the digit part accepted by Python `int()`: a nonempty
run of ASCII digits in which each underscore sits between two digits. -/
def wfDigits : List Char → Bool
  | [] => false
  | [c] => isAsciiDigit c
  | c :: '_' :: rest => isAsciiDigit c && wfDigits rest
  | c :: rest => isAsciiDigit c && wfDigits rest

/-- Numeric value of a digit run, skipping underscores. -/
def digitsValue (cs : List Char) : Nat :=
  cs.foldl (fun a c => if c = '_' then a else a * 10 + (c.toNat - 48)) 0

/-- Python `int(s)` restricted to the token shapes that can occur here:
surrounding whitespace stripped, an optional sign, then digits (with
underscore separators).  Returns `none` where Python raises `ValueError`. -/
def pyInt? (s : String) : Option Int :=
  match pyStripList s.toList with
  | '-' :: ds => if wfDigits ds then some (-(digitsValue ds : Int)) else none
  | '+' :: ds => if wfDigits ds then some ((digitsValue ds : Int)) else none
  | ds => if wfDigits ds then some ((digitsValue ds : Int)) else none

namespace Interpreter

/-!
### The tokenizer (`Interpreter.parse_instruction`, src/part_2.py lines 221-292)

The Python scanner is an index-walking loop; it is embedded as three
functions:
* `scanCommand` is the command-reading loop (`while i < len and valid_symbol`),
  which also detects a `:` right after the scanned prefix and turns the line
  into a `_label` instruction via `StopIteration`;
* `scanArgs` is the operand loop that follows (identifier runs, `-`/digit
  runs, quoted runs, `;` comment cut-off, anything else skipped);
* `parseOuter` is the outermost loop that skips leading non-symbol characters
  and stops on `;`.
Each `i += 1` that skips the character which ended an inner run shows up as a
`.drop 1`.
-/

/-- The command-reading loop of `parse_instruction`.  `cmdAcc` holds the
scanned command characters in reverse.  Returns `Sum.inl` for the
label-definition early exit (`StopIteration`), else `Sum.inr (cmdAcc, rest)`
where `rest` is the input after the command *and* after the one extra
character skipped by the `i += 1` that follows the loop. -/
def scanCommand : List Char → List Char → (String × List String) ⊕ (List Char × List Char)
  | [], cmdAcc => Sum.inr (cmdAcc, [])
  | c :: rest, cmdAcc =>
    if validSymbol c then
      match rest with
      | d :: _ =>
        if d = ':' then Sum.inl ("_label", [String.mk (c :: cmdAcc).reverse])
        else scanCommand rest (c :: cmdAcc)
      | [] => scanCommand rest (c :: cmdAcc)
    else Sum.inr (cmdAcc, rest)

/-- The operand loop of `parse_instruction`.  `args` holds the operands
scanned so far in reverse; the function returns them in order.  The first
argument is a step bound: every iteration consumes at least one input
character, so any bound at least the input length makes the bound
irrelevant; `scanArgs` instantiates it with the input length. -/
def scanArgsFuel : Nat → List Char → List String → List String
  | _, [], args => args.reverse
  | 0, _ :: _, args => args.reverse
  | fuel + 1, c :: rest, args =>
    if validSymbol c then
      scanArgsFuel fuel ((rest.dropWhile validSymbol).drop 1)
        (String.mk (c :: rest.takeWhile validSymbol) :: args)
    else if c = '-' || isAsciiDigit c then
      scanArgsFuel fuel ((rest.dropWhile isAsciiDigit).drop 1)
        (String.mk (c :: rest.takeWhile isAsciiDigit) :: args)
    else if c = quoteChar then
      scanArgsFuel fuel ((rest.dropWhile (fun d => d ≠ quoteChar)).drop 1)
        (String.mk (quoteChar :: rest.takeWhile (fun d => d ≠ quoteChar) ++ [quoteChar]) :: args)
    else if c = ';' then args.reverse
    else scanArgsFuel fuel rest args

/-- The operand loop, at its natural step bound. -/
def scanArgs (cs : List Char) (args : List String) : List String :=
  scanArgsFuel cs.length cs args

/-- The outermost loop of `parse_instruction`: skip characters until a valid
symbol (start the command) or a `;` (whole line is a comment). -/
def parseOuter : List Char → String × List String
  | [] => ("", [])
  | c :: rest =>
    if validSymbol c then
      match scanCommand (c :: rest) [] with
      | Sum.inl r => r
      | Sum.inr (cmdAcc, after) => (String.mk cmdAcc.reverse, scanArgs after [])
    else if c = ';' then ("", [])
    else parseOuter rest

/-- `Interpreter.parse_instruction` (src/part_2.py): one source line to a
`(command, args)` pair. -/
def parse_instruction (instruction : String) : String × List String :=
  parseOuter (pyStripList instruction.toList)

/-!
### Execution state and instruction handlers (src/part_2.py lines 46-219)

The mutable fields of the `Interpreter` object.  A register slot holds
`Option Int`: `some n` for a Python int, `none` for Python `None` (which
`mov` can store when it copies a never-written register).  `labels` and the
parsed program are immutable after `__init__` and are passed as parameters.
`fragments` is a ghost field: the flat list of the individual strings every
`msg` appended, used only to state properties (`messages` is the source's
own field, one already-joined string per executed `msg`). -/
structure St where
  commandIndex : Nat
  registers : List (String × Option Int)
  callStack : List Nat
  cmpFlag : Option Int
  successFlag : Bool
  messages : List String
  fragments : List String
  deriving DecidableEq, Repr

/-- The state right after `__init__`. -/
def initSt : St := ⟨0, [], [], none, false, [], []⟩

/-- `Interpreter.inc_ci`. -/
def inc_ci (st : St) : St := { st with commandIndex := st.commandIndex + 1 }

/-- `Interpreter._get_value`: try `int(token)`, else `registers.get(token)`
(`none` both for a missing register and for a stored `None`; never raises). -/
def _get_value (regs : List (String × Option Int)) (tok : String) : Option Int :=
  match pyInt? tok with
  | some n => some n
  | none => (dictGet tok regs).join

/-- Truthiness of the comparison flag (`None` and `0` are falsy). -/
def pyTruthy : Option Int → Bool
  | none => false
  | some n => n != 0

/-- Python `str(v)` for a register value: decimal digits, `-` sign,
`"None"` for `None`. -/
def pyStr : Option Int → String
  | none => "None"
  | some n => toString n

/-- `Interpreter.mov`. -/
def mov (st : St) (register v : String) : Except Err St :=
  Except.ok (inc_ci
    { st with registers := dictInsert register (_get_value st.registers v) st.registers })

/-- `Interpreter.inc`: `registers[r] += 1`; `KeyError` on a missing register,
`TypeError` when the slot holds `None`. -/
def inc (st : St) (register : String) : Except Err St :=
  match dictGet register st.registers with
  | none => Except.error Err.keyError
  | some none => Except.error Err.typeError
  | some (some a) =>
    Except.ok (inc_ci { st with registers := dictInsert register (some (a + 1)) st.registers })

/-- `Interpreter.dec`: `registers[r] -= 1`. -/
def dec (st : St) (register : String) : Except Err St :=
  match dictGet register st.registers with
  | none => Except.error Err.keyError
  | some none => Except.error Err.typeError
  | some (some a) =>
    Except.ok (inc_ci { st with registers := dictInsert register (some (a - 1)) st.registers })

/-- Common shape of `Interpreter.add/sub/mul`:
`registers[r] = registers[r] ∘ _get_value(v)`; `KeyError` on a missing
register, `TypeError` when either side is `None`. -/
def arith (f : Int → Int → Int) (st : St) (register v : String) : Except Err St :=
  match dictGet register st.registers with
  | none => Except.error Err.keyError
  | some none => Except.error Err.typeError
  | some (some a) =>
    match _get_value st.registers v with
    | none => Except.error Err.typeError
    | some b =>
      Except.ok (inc_ci { st with registers := dictInsert register (some (f a b)) st.registers })

/-- `Interpreter.add`. -/
def add : St → String → String → Except Err St := arith (· + ·)

/-- `Interpreter.sub`. -/
def sub : St → String → String → Except Err St := arith (· - ·)

/-- `Interpreter.mul`. -/
def mul : St → String → String → Except Err St := arith (· * ·)

/-- `Interpreter.div`: `registers[r] //= _get_value(v)` — Python floor
division (`Int.fdiv`); `ZeroDivisionError` on a zero divisor, `TypeError` if
either side is `None`, `KeyError` on a missing register. -/
def div (st : St) (register v : String) : Except Err St :=
  match dictGet register st.registers with
  | none => Except.error Err.keyError
  | some none => Except.error Err.typeError
  | some (some a) =>
    match _get_value st.registers v with
    | none => Except.error Err.typeError
    | some b =>
      if b = 0 then Except.error Err.zeroDivisionError
      else
        Except.ok (inc_ci
          { st with registers := dictInsert register (some (Int.fdiv a b)) st.registers })

/-- `Interpreter.jmp`: `command_index = labels[label]`; `KeyError` when the
label is undefined. -/
def jmp (labels : List (String × Nat)) (st : St) (label : String) : Except Err St :=
  match dictGet label labels with
  | none => Except.error Err.keyError
  | some t => Except.ok { st with commandIndex := t }

/-- `Interpreter.cmp`: `_cmp_flag = _get_value(x) - _get_value(y)`;
`TypeError` when either operand resolves to `None`. -/
def cmp (st : St) (x y : String) : Except Err St :=
  match _get_value st.registers x, _get_value st.registers y with
  | some a, some b => Except.ok (inc_ci { st with cmpFlag := some (a - b) })
  | _, _ => Except.error Err.typeError

/-- `Interpreter.jne`: `if self._cmp_flag:` — jump on a truthy flag. -/
def jne (labels : List (String × Nat)) (st : St) (label : String) : Except Err St :=
  if pyTruthy st.cmpFlag then jmp labels st label else Except.ok (inc_ci st)

/-- `Interpreter.je`: `if not self._cmp_flag:` — jump on a falsy flag. -/
def je (labels : List (String × Nat)) (st : St) (label : String) : Except Err St :=
  if pyTruthy st.cmpFlag then Except.ok (inc_ci st) else jmp labels st label

/-- `Interpreter.jge`: `self._cmp_flag >= 0` — `TypeError` on a `None` flag. -/
def jge (labels : List (String × Nat)) (st : St) (label : String) : Except Err St :=
  match st.cmpFlag with
  | none => Except.error Err.typeError
  | some n => if n ≥ 0 then jmp labels st label else Except.ok (inc_ci st)

/-- `Interpreter.jg`. -/
def jg (labels : List (String × Nat)) (st : St) (label : String) : Except Err St :=
  match st.cmpFlag with
  | none => Except.error Err.typeError
  | some n => if n > 0 then jmp labels st label else Except.ok (inc_ci st)

/-- `Interpreter.jle`. -/
def jle (labels : List (String × Nat)) (st : St) (label : String) : Except Err St :=
  match st.cmpFlag with
  | none => Except.error Err.typeError
  | some n => if n ≤ 0 then jmp labels st label else Except.ok (inc_ci st)

/-- `Interpreter.jl`. -/
def jl (labels : List (String × Nat)) (st : St) (label : String) : Except Err St :=
  match st.cmpFlag with
  | none => Except.error Err.typeError
  | some n => if n < 0 then jmp labels st label else Except.ok (inc_ci st)

/-- `Interpreter.call`: push `command_index + 1`, then `jmp`. -/
def call (labels : List (String × Nat)) (st : St) (label : String) : Except Err St :=
  jmp labels { st with callStack := (st.commandIndex + 1) :: st.callStack } label

/-- `Interpreter.ret`: `command_index = call_stack.pop()`; `IndexError` on an
empty stack. -/
def ret (st : St) : Except Err St :=
  match st.callStack with
  | [] => Except.error Err.indexError
  | r :: rest => Except.ok { st with commandIndex := r, callStack := rest }

/-- One `msg` operand: a token starting with a quote contributes `arg[1:-1]`
(quotes stripped); anything else contributes `str(_get_value(arg))`. -/
def msgFragment (regs : List (String × Option Int)) (arg : String) : String :=
  if arg.toList.head? = some quoteChar then String.mk ((arg.toList.drop 1).dropLast)
  else pyStr (_get_value regs arg)

/-- `Interpreter.msg`: append `''.join(strings)` to `messages` (and record
the individual fragments in the ghost `fragments` field). -/
def msg (st : St) (args : List String) : Except Err St :=
  let strings := args.map (msgFragment st.registers)
  Except.ok (inc_ci
    { st with messages := st.messages ++ [pyJoin strings],
              fragments := st.fragments ++ strings })

/-- `Interpreter.end`: point past the program and set the success flag. -/
def endCmd (progLen : Nat) (st : St) : Except Err St :=
  Except.ok { st with commandIndex := progLen, successFlag := true }

/-- Calling a two-parameter bound method with `*args`: anything other than
exactly two arguments is a Python `TypeError`. -/
def withArgs2 (args : List String) (f : String → String → Except Err St) : Except Err St :=
  match args with
  | [a, b] => f a b
  | _ => Except.error Err.typeError

/-- Calling a one-parameter bound method with `*args`. -/
def withArgs1 (args : List String) (f : String → Except Err St) : Except Err St :=
  match args with
  | [a] => f a
  | _ => Except.error Err.typeError

/-- Calling a zero-parameter bound method with `*args`. -/
def withArgs0 (args : List String) (f : Except Err St) : Except Err St :=
  match args with
  | [] => f
  | _ => Except.error Err.typeError

/-- `self.available_instructions[command](*args)`: dispatch on the command
string; a key present in the dict but called with the wrong number of
arguments is a Python `TypeError`, a missing key a `KeyError`.  `;`,
`_label` and the empty string map to `inc_ci`, which accepts any arguments
(`*args`); `msg` also takes `*args`. -/
def execInstr (progLen : Nat) (labels : List (String × Nat)) (cmd : String)
    (args : List String) (st : St) : Except Err St :=
  if cmd = "mov" then withArgs2 args (mov st)
  else if cmd = "inc" then withArgs1 args (inc st)
  else if cmd = "dec" then withArgs1 args (dec st)
  else if cmd = "add" then withArgs2 args (add st)
  else if cmd = "sub" then withArgs2 args (sub st)
  else if cmd = "mul" then withArgs2 args (mul st)
  else if cmd = "div" then withArgs2 args (div st)
  else if cmd = "jmp" then withArgs1 args (jmp labels st)
  else if cmd = "cmp" then withArgs2 args (cmp st)
  else if cmd = "jne" then withArgs1 args (jne labels st)
  else if cmd = "je" then withArgs1 args (je labels st)
  else if cmd = "jge" then withArgs1 args (jge labels st)
  else if cmd = "jg" then withArgs1 args (jg labels st)
  else if cmd = "jle" then withArgs1 args (jle labels st)
  else if cmd = "jl" then withArgs1 args (jl labels st)
  else if cmd = "call" then withArgs1 args (call labels st)
  else if cmd = "ret" then withArgs0 args (ret st)
  else if cmd = "msg" then msg st args
  else if cmd = "end" then withArgs0 args (endCmd progLen st)
  else if cmd = ";" ∨ cmd = "_label" ∨ cmd = "" then Except.ok (inc_ci st)
  else Except.error Err.keyError

/-- `Interpreter.parse_labels` worker: scan the parsed instructions in order,
recording `labels[args[0]] = index + 1` for every `_label`; `args[0]` on an
empty operand list is an `IndexError`. -/
def parse_labelsAux : List (String × List String) → Nat → List (String × Nat) →
    Except Err (List (String × Nat))
  | [], _, acc => Except.ok acc
  | (cmd, args) :: rest, idx, acc =>
    if cmd = "_label" then
      match args with
      | a :: _ => parse_labelsAux rest (idx + 1) (dictInsert a (idx + 1) acc)
      | [] => Except.error Err.indexError
    else parse_labelsAux rest (idx + 1) acc

/-- `Interpreter.parse_labels`. -/
def parse_labels (parsed : List (String × List String)) :
    Except Err (List (String × Nat)) :=
  parse_labelsAux parsed 0 []

/-- The `while self.command_index < len(self.parsed_instructions)` loop of
`Interpreter.run_parsed`, fuel-indexed (`none` = fuel ran out before the
loop finished; the loop itself can run forever). -/
def runLoop (parsed : List (String × List String)) (labels : List (String × Nat)) :
    Nat → St → Option (Except Err St)
  | 0, _ => none
  | fuel + 1, st =>
    match parsed.get? st.commandIndex with
    | none => some (Except.ok st)
    | some (cmd, args) =>
      if cmd = "" then runLoop parsed labels fuel (inc_ci st)
      else
        match execInstr parsed.length labels cmd args st with
        | Except.error e => some (Except.error e)
        | Except.ok st' => runLoop parsed labels fuel st'

/-- `__init__`: `commands = [x.strip() for x in program_lines.splitlines()]`,
then `parsed_instructions = [parse_instruction(x) for x in commands]`. -/
def loadProgram (program : String) : List (String × List String) :=
  ((pySplitlines program).map pyStrip).map parse_instruction

/-- Build the interpreter and run the loop, returning the final state (or
the exception, or `none` when the fuel ran out). -/
def runFinal (program : String) (fuel : Nat) : Option (Except Err St) :=
  let parsed := loadProgram program
  match parse_labels parsed with
  | Except.error e => some (Except.error e)
  | Except.ok labels => runLoop parsed labels fuel initSt

/-- `Interpreter.exit_message`: `''.join(messages)` on success, `-1`
otherwise. -/
def exit_message (st : St) : String ⊕ Int :=
  if st.successFlag then Sum.inl (pyJoin st.messages) else Sum.inr (-1)

end Interpreter

/-- `assembler_interpreter(program)` (src/part_2.py line 295):
`Interpreter(program_lines=program).run_parsed()`. -/
def assembler_interpreter (program : String) (fuel : Nat) :
    Option (Except Err (String ⊕ Int)) :=
  (Interpreter.runFinal program fuel).map (Except.map Interpreter.exit_message)

namespace Kata

/-!
### The duplicated variant (src/kata/part_2_kata.py)

The inner class `Interpreter` of `assembler_interpreter` in
`src/kata/part_2_kata.py` is textually identical to the one in
`src/part_2.py` (its extra `is_label` method is never called) **except** for
`parse_instruction`, which differs in two ways: a `comment_found` local that
is initialized `False` and never reassigned but is tested in the operand-loop
condition, and an `if command != '_label':` guard around the operand loop.
The command-reading loop is textually identical, so `Interpreter.scanCommand`
is reused; the operand loop and the outer loop are re-embedded below. -/

/-- The kata operand loop: `while i < len(instruction) and not comment_found`.
The first parameter is `comment_found`; every iteration passes it on
unchanged (it is never assigned in the source). -/
def kataScanArgsFuel : Bool → Nat → List Char → List String → List String
  | true, _, _, args => args.reverse
  | false, _, [], args => args.reverse
  | false, 0, _ :: _, args => args.reverse
  | false, fuel + 1, c :: rest, args =>
    if validSymbol c then
      kataScanArgsFuel false fuel ((rest.dropWhile validSymbol).drop 1)
        (String.mk (c :: rest.takeWhile validSymbol) :: args)
    else if c = '-' || isAsciiDigit c then
      kataScanArgsFuel false fuel ((rest.dropWhile isAsciiDigit).drop 1)
        (String.mk (c :: rest.takeWhile isAsciiDigit) :: args)
    else if c = quoteChar then
      kataScanArgsFuel false fuel ((rest.dropWhile (fun d => d ≠ quoteChar)).drop 1)
        (String.mk (quoteChar :: rest.takeWhile (fun d => d ≠ quoteChar) ++ [quoteChar]) :: args)
    else if c = ';' then args.reverse
    else kataScanArgsFuel false fuel rest args

/-- The kata operand loop, at its natural step bound. -/
def kataScanArgs (cf : Bool) (cs : List Char) (args : List String) : List String :=
  kataScanArgsFuel cf cs.length cs args

/-- The kata outer tokenizer loop, with the `if command != '_label':` guard
before the operand loop (when the guard fails, the operand list stays `[]`). -/
def kataParseOuter : List Char → String × List String
  | [] => ("", [])
  | c :: rest =>
    if validSymbol c then
      match Interpreter.scanCommand (c :: rest) [] with
      | Sum.inl r => r
      | Sum.inr (cmdAcc, after) =>
        let command := String.mk cmdAcc.reverse
        if command ≠ "_label" then (command, kataScanArgs false after [])
        else (command, [])
    else if c = ';' then ("", [])
    else kataParseOuter rest

/-- The kata variant's `parse_instruction` (src/kata/part_2_kata.py
lines 225-299). -/
def parse_instruction (instruction : String) : String × List String :=
  kataParseOuter (pyStripList instruction.toList)

/-- The kata `__init__` parsing step. -/
def loadProgram (program : String) : List (String × List String) :=
  ((pySplitlines program).map pyStrip).map Kata.parse_instruction

/-- The kata interpreter run; every handler, `parse_labels` and the run loop
are textually identical to `src/part_2.py`, so those embeddings are shared. -/
def runFinal (program : String) (fuel : Nat) : Option (Except Err Interpreter.St) :=
  let parsed := loadProgram program
  match Interpreter.parse_labels parsed with
  | Except.error e => some (Except.error e)
  | Except.ok labels => Interpreter.runLoop parsed labels fuel Interpreter.initSt

end Kata

/-- `assembler_interpreter(program)` from src/kata/part_2_kata.py. -/
def kata_assembler_interpreter (program : String) (fuel : Nat) :
    Option (Except Err (String ⊕ Int)) :=
  (Kata.runFinal program fuel).map (Except.map Interpreter.exit_message)

/-! ## Helper lemmas -/

theorem pyJoin_append (l₁ l₂ : List String) :
    pyJoin (l₁ ++ l₂) = pyJoin l₁ ++ pyJoin l₂ := by
  induction l₁ with
  | nil => simp [pyJoin]
  | cons s rest ih => simp [pyJoin, ih, String.append_assoc]

theorem mov_out {st st' : Interpreter.St} {args : List String}
    (h : Interpreter.withArgs2 args (Interpreter.mov st) = Except.ok st') :
    st'.messages = st.messages ∧ st'.fragments = st.fragments := by
  unfold Interpreter.withArgs2 Interpreter.mov Interpreter.inc_ci at h
  repeat' split at h
  all_goals cases h
  all_goals exact ⟨rfl, rfl⟩

theorem inc_out {st st' : Interpreter.St} {args : List String}
    (h : Interpreter.withArgs1 args (Interpreter.inc st) = Except.ok st') :
    st'.messages = st.messages ∧ st'.fragments = st.fragments := by
  unfold Interpreter.withArgs1 Interpreter.inc Interpreter.inc_ci at h
  repeat' split at h
  all_goals cases h
  all_goals exact ⟨rfl, rfl⟩

theorem dec_out {st st' : Interpreter.St} {args : List String}
    (h : Interpreter.withArgs1 args (Interpreter.dec st) = Except.ok st') :
    st'.messages = st.messages ∧ st'.fragments = st.fragments := by
  unfold Interpreter.withArgs1 Interpreter.dec Interpreter.inc_ci at h
  repeat' split at h
  all_goals cases h
  all_goals exact ⟨rfl, rfl⟩

theorem arith_out {f : Int → Int → Int} {st st' : Interpreter.St} {args : List String}
    (h : Interpreter.withArgs2 args (Interpreter.arith f st) = Except.ok st') :
    st'.messages = st.messages ∧ st'.fragments = st.fragments := by
  unfold Interpreter.withArgs2 Interpreter.arith Interpreter.inc_ci at h
  repeat' split at h
  all_goals cases h
  all_goals exact ⟨rfl, rfl⟩

theorem div_out {st st' : Interpreter.St} {args : List String}
    (h : Interpreter.withArgs2 args (Interpreter.div st) = Except.ok st') :
    st'.messages = st.messages ∧ st'.fragments = st.fragments := by
  unfold Interpreter.withArgs2 Interpreter.div Interpreter.inc_ci at h
  repeat' split at h
  all_goals cases h
  all_goals exact ⟨rfl, rfl⟩

theorem jmp_out {labels : List (String × Nat)} {st st' : Interpreter.St} {args : List String}
    (h : Interpreter.withArgs1 args (Interpreter.jmp labels st) = Except.ok st') :
    st'.messages = st.messages ∧ st'.fragments = st.fragments := by
  unfold Interpreter.withArgs1 Interpreter.jmp at h
  repeat' split at h
  all_goals cases h
  all_goals exact ⟨rfl, rfl⟩

theorem cmp_out {st st' : Interpreter.St} {args : List String}
    (h : Interpreter.withArgs2 args (Interpreter.cmp st) = Except.ok st') :
    st'.messages = st.messages ∧ st'.fragments = st.fragments := by
  unfold Interpreter.withArgs2 Interpreter.cmp Interpreter.inc_ci at h
  repeat' split at h
  all_goals cases h
  all_goals exact ⟨rfl, rfl⟩

theorem jne_out {labels : List (String × Nat)} {st st' : Interpreter.St} {args : List String}
    (h : Interpreter.withArgs1 args (Interpreter.jne labels st) = Except.ok st') :
    st'.messages = st.messages ∧ st'.fragments = st.fragments := by
  unfold Interpreter.withArgs1 Interpreter.jne Interpreter.jmp Interpreter.inc_ci at h
  repeat' split at h
  all_goals cases h
  all_goals exact ⟨rfl, rfl⟩

theorem je_out {labels : List (String × Nat)} {st st' : Interpreter.St} {args : List String}
    (h : Interpreter.withArgs1 args (Interpreter.je labels st) = Except.ok st') :
    st'.messages = st.messages ∧ st'.fragments = st.fragments := by
  unfold Interpreter.withArgs1 Interpreter.je Interpreter.jmp Interpreter.inc_ci at h
  repeat' split at h
  all_goals cases h
  all_goals exact ⟨rfl, rfl⟩

theorem jge_out {labels : List (String × Nat)} {st st' : Interpreter.St} {args : List String}
    (h : Interpreter.withArgs1 args (Interpreter.jge labels st) = Except.ok st') :
    st'.messages = st.messages ∧ st'.fragments = st.fragments := by
  unfold Interpreter.withArgs1 Interpreter.jge Interpreter.jmp Interpreter.inc_ci at h
  repeat' split at h
  all_goals cases h
  all_goals exact ⟨rfl, rfl⟩

theorem jg_out {labels : List (String × Nat)} {st st' : Interpreter.St} {args : List String}
    (h : Interpreter.withArgs1 args (Interpreter.jg labels st) = Except.ok st') :
    st'.messages = st.messages ∧ st'.fragments = st.fragments := by
  unfold Interpreter.withArgs1 Interpreter.jg Interpreter.jmp Interpreter.inc_ci at h
  repeat' split at h
  all_goals cases h
  all_goals exact ⟨rfl, rfl⟩

theorem jle_out {labels : List (String × Nat)} {st st' : Interpreter.St} {args : List String}
    (h : Interpreter.withArgs1 args (Interpreter.jle labels st) = Except.ok st') :
    st'.messages = st.messages ∧ st'.fragments = st.fragments := by
  unfold Interpreter.withArgs1 Interpreter.jle Interpreter.jmp Interpreter.inc_ci at h
  repeat' split at h
  all_goals cases h
  all_goals exact ⟨rfl, rfl⟩

theorem jl_out {labels : List (String × Nat)} {st st' : Interpreter.St} {args : List String}
    (h : Interpreter.withArgs1 args (Interpreter.jl labels st) = Except.ok st') :
    st'.messages = st.messages ∧ st'.fragments = st.fragments := by
  unfold Interpreter.withArgs1 Interpreter.jl Interpreter.jmp Interpreter.inc_ci at h
  repeat' split at h
  all_goals cases h
  all_goals exact ⟨rfl, rfl⟩

theorem call_out {labels : List (String × Nat)} {st st' : Interpreter.St} {args : List String}
    (h : Interpreter.withArgs1 args (Interpreter.call labels st) = Except.ok st') :
    st'.messages = st.messages ∧ st'.fragments = st.fragments := by
  unfold Interpreter.withArgs1 Interpreter.call Interpreter.jmp at h
  repeat' split at h
  all_goals cases h
  all_goals exact ⟨rfl, rfl⟩

theorem ret_out {st st' : Interpreter.St} {args : List String}
    (h : Interpreter.withArgs0 args (Interpreter.ret st) = Except.ok st') :
    st'.messages = st.messages ∧ st'.fragments = st.fragments := by
  unfold Interpreter.withArgs0 Interpreter.ret at h
  repeat' split at h
  all_goals cases h
  all_goals exact ⟨rfl, rfl⟩

theorem end_out {progLen : Nat} {st st' : Interpreter.St} {args : List String}
    (h : Interpreter.withArgs0 args (Interpreter.endCmd progLen st) = Except.ok st') :
    st'.messages = st.messages ∧ st'.fragments = st.fragments := by
  unfold Interpreter.withArgs0 Interpreter.endCmd at h
  repeat' split at h
  all_goals cases h
  all_goals exact ⟨rfl, rfl⟩

/-- `msg` appends one joined message and the matching fragments. -/
theorem msg_out {st st' : Interpreter.St} {args : List String}
    (h : Interpreter.msg st args = Except.ok st') :
    st'.messages = st.messages ++ [pyJoin (args.map (Interpreter.msgFragment st.registers))] ∧
    st'.fragments = st.fragments ++ args.map (Interpreter.msgFragment st.registers) := by
  unfold Interpreter.msg Interpreter.inc_ci at h
  cases h
  exact ⟨rfl, rfl⟩

/-- Every successful instruction step either leaves the output fields alone
or appends one `msg`'s worth of output to both, keeping the joined `messages`
equal to the joined ghost `fragments`. -/
theorem execInstr_out {progLen : Nat} {labels : List (String × Nat)}
    {cmd : String} {args : List String} {st st' : Interpreter.St}
    (h : Interpreter.execInstr progLen labels cmd args st = Except.ok st')
    (hinv : pyJoin st.messages = pyJoin st.fragments) :
    pyJoin st'.messages = pyJoin st'.fragments := by
  unfold Interpreter.execInstr at h
  by_cases h1 : cmd = "mov"
  · rw [if_pos h1] at h
    rw [(mov_out h).1, (mov_out h).2]
    exact hinv
  rw [if_neg h1] at h
  by_cases h2 : cmd = "inc"
  · rw [if_pos h2] at h
    rw [(inc_out h).1, (inc_out h).2]
    exact hinv
  rw [if_neg h2] at h
  by_cases h3 : cmd = "dec"
  · rw [if_pos h3] at h
    rw [(dec_out h).1, (dec_out h).2]
    exact hinv
  rw [if_neg h3] at h
  by_cases h4 : cmd = "add"
  · rw [if_pos h4] at h
    rw [(arith_out h).1, (arith_out h).2]
    exact hinv
  rw [if_neg h4] at h
  by_cases h5 : cmd = "sub"
  · rw [if_pos h5] at h
    rw [(arith_out h).1, (arith_out h).2]
    exact hinv
  rw [if_neg h5] at h
  by_cases h6 : cmd = "mul"
  · rw [if_pos h6] at h
    rw [(arith_out h).1, (arith_out h).2]
    exact hinv
  rw [if_neg h6] at h
  by_cases h7 : cmd = "div"
  · rw [if_pos h7] at h
    rw [(div_out h).1, (div_out h).2]
    exact hinv
  rw [if_neg h7] at h
  by_cases h8 : cmd = "jmp"
  · rw [if_pos h8] at h
    rw [(jmp_out h).1, (jmp_out h).2]
    exact hinv
  rw [if_neg h8] at h
  by_cases h9 : cmd = "cmp"
  · rw [if_pos h9] at h
    rw [(cmp_out h).1, (cmp_out h).2]
    exact hinv
  rw [if_neg h9] at h
  by_cases h10 : cmd = "jne"
  · rw [if_pos h10] at h
    rw [(jne_out h).1, (jne_out h).2]
    exact hinv
  rw [if_neg h10] at h
  by_cases h11 : cmd = "je"
  · rw [if_pos h11] at h
    rw [(je_out h).1, (je_out h).2]
    exact hinv
  rw [if_neg h11] at h
  by_cases h12 : cmd = "jge"
  · rw [if_pos h12] at h
    rw [(jge_out h).1, (jge_out h).2]
    exact hinv
  rw [if_neg h12] at h
  by_cases h13 : cmd = "jg"
  · rw [if_pos h13] at h
    rw [(jg_out h).1, (jg_out h).2]
    exact hinv
  rw [if_neg h13] at h
  by_cases h14 : cmd = "jle"
  · rw [if_pos h14] at h
    rw [(jle_out h).1, (jle_out h).2]
    exact hinv
  rw [if_neg h14] at h
  by_cases h15 : cmd = "jl"
  · rw [if_pos h15] at h
    rw [(jl_out h).1, (jl_out h).2]
    exact hinv
  rw [if_neg h15] at h
  by_cases h16 : cmd = "call"
  · rw [if_pos h16] at h
    rw [(call_out h).1, (call_out h).2]
    exact hinv
  rw [if_neg h16] at h
  by_cases h17 : cmd = "ret"
  · rw [if_pos h17] at h
    rw [(ret_out h).1, (ret_out h).2]
    exact hinv
  rw [if_neg h17] at h
  by_cases h18 : cmd = "msg"
  · rw [if_pos h18] at h
    rw [(msg_out h).1, (msg_out h).2]
    simp only [pyJoin_append, pyJoin, String.append_empty]
    rw [hinv]
  rw [if_neg h18] at h
  by_cases h19 : cmd = "end"
  · rw [if_pos h19] at h
    rw [(end_out h).1, (end_out h).2]
    exact hinv
  rw [if_neg h19] at h
  by_cases h20 : cmd = ";" ∨ cmd = "_label" ∨ cmd = ""
  · rw [if_pos h20] at h
    cases h
    exact hinv
  rw [if_neg h20] at h
  cases h

/-- The run loop preserves the output invariant. -/
theorem runLoop_out {parsed : List (String × List String)}
    {labels : List (String × Nat)} : ∀ {fuel : Nat} {st st' : Interpreter.St},
    Interpreter.runLoop parsed labels fuel st = some (Except.ok st') →
    pyJoin st.messages = pyJoin st.fragments →
    pyJoin st'.messages = pyJoin st'.fragments := by
  intro fuel
  induction fuel with
  | zero => intro st st' h _; simp [Interpreter.runLoop] at h
  | succ n ih =>
    intro st st' h hinv
    rw [Interpreter.runLoop] at h
    split at h
    · simp only [Option.some.injEq, Except.ok.injEq] at h
      subst h; exact hinv
    · split at h
      · exact ih h (by simpa [Interpreter.inc_ci] using hinv)
      · split at h
        · simp at h
        · rename_i st₁ he
          exact ih h (execInstr_out he hinv)

/-- A normally finished run satisfies the output invariant. -/
theorem runFinal_out {p : String} {fuel : Nat} {st : Interpreter.St}
    (h : Interpreter.runFinal p fuel = some (Except.ok st)) :
    pyJoin st.messages = pyJoin st.fragments := by
  simp only [Interpreter.runFinal] at h
  split at h
  · simp at h
  · exact runLoop_out h rfl

/-! ## The claims -/

/-- **C1.**  For every program whose execution reaches `end` (the run loop
finishes with the success flag set), the value the interpreter returns is the
exact concatenation, in execution order, of the fragments produced by every
`msg` instruction processed — the ghost `fragments` trace, in which a quoted
operand contributes its content with the quotes stripped and every other
operand the decimal string of its resolved value, with nothing inserted
between operands or between successive `msg` instructions. -/
theorem c1_success_output_concat (p : String) (fuel : Nat) (st : Interpreter.St)
    (h : Interpreter.runFinal p fuel = some (Except.ok st))
    (hs : st.successFlag = true) :
    assembler_interpreter p fuel = some (Except.ok (Sum.inl (pyJoin st.fragments))) := by
  have hinv := runFinal_out h
  unfold assembler_interpreter
  rw [h]
  simp [Except.map, Interpreter.exit_message, hs, hinv]

/-- Witness for C1: a program with two `msg` instructions; the result is the
flat concatenation of their four fragments. -/
theorem c1_witness :
    assembler_interpreter "msg 'a', 'b'\nmsg 'c'\nend" 9 =
      some (Except.ok (Sum.inl (pyJoin ["a", "b", "c"]))) :=
  c1_success_output_concat _ _ ⟨3, [], [], none, true, ["ab", "c"], ["a", "b", "c"]⟩ rfl rfl

/-- **C2 counterexample.**  The single-instruction program `ret` hits a fatal
engine error (Python `IndexError` from popping the empty call stack): the
interpreter raises an uncaught exception and does *not* return the `-1`
Failure sentinel, contrary to the claim that every program that never
executes `end` results in the sentinel. -/
theorem c2_counterexample :
    assembler_interpreter "ret" 5 = some (Except.error Err.indexError) ∧
    ¬ assembler_interpreter "ret" 5 = some (Except.ok (Sum.inr (-1))) :=
  ⟨rfl, fun hcon => by
    have h2 : (some (Except.error Err.indexError) : Option (Except Err (String ⊕ Int))) =
        some (Except.ok (Sum.inr (-1))) := hcon
    exact Except.noConfusion (Option.some.inj h2)⟩

/-- **C2 (amended).**  A program whose instruction pointer runs past the last
instruction while still running returns the `-1` Failure sentinel — never a
partial concatenation; a fatal engine error instead aborts the run with the
uncaught exception itself (no result value at all, in particular no partial
output). -/
theorem c2_fall_off_sentinel :
    (∀ (p : String) (fuel : Nat) (st : Interpreter.St),
      Interpreter.runFinal p fuel = some (Except.ok st) → st.successFlag = false →
      assembler_interpreter p fuel = some (Except.ok (Sum.inr (-1)))) ∧
    (∀ (p : String) (fuel : Nat) (e : Err),
      Interpreter.runFinal p fuel = some (Except.error e) →
      assembler_interpreter p fuel = some (Except.error e)) := by
  constructor
  · intro p fuel st h hs
    unfold assembler_interpreter
    rw [h]
    simp [Except.map, Interpreter.exit_message, hs]
  · intro p fuel e h
    unfold assembler_interpreter
    rw [h]
    rfl

/-- Witness for C2: `mov a, 1` falls off the end without `end` and returns
the sentinel. -/
theorem c2_witness :
    assembler_interpreter "mov a, 1" 5 = some (Except.ok (Sum.inr (-1))) :=
  c2_fall_off_sentinel.1 "mov a, 1" 5 ⟨1, [("a", some 1)], [], none, false, [], []⟩ rfl rfl

/-- **C3.**  A successful `cmp x, y` sets the comparison flag to
`resolve(x) - resolve(y)` and advances the pointer by one; with that flag, a
conditional jump to a defined label is taken exactly when the corresponding
relation between the resolved operands holds, and otherwise the pointer
advances by exactly 1. -/
theorem c3_cmp_jump_semantics (L : Nat) (labels : List (String × Nat))
    (x y lbl : String) (a b : Int) (t : Nat) (st : Interpreter.St)
    (hx : Interpreter._get_value st.registers x = some a)
    (hy : Interpreter._get_value st.registers y = some b)
    (ht : dictGet lbl labels = some t) :
    Interpreter.execInstr L labels "cmp" [x, y] st =
      Except.ok { st with commandIndex := st.commandIndex + 1, cmpFlag := some (a - b) } ∧
    ∀ st₂ : Interpreter.St, st₂.cmpFlag = some (a - b) →
      (Interpreter.execInstr L labels "je" [lbl] st₂ =
        Except.ok { st₂ with commandIndex := if a = b then t else st₂.commandIndex + 1 }) ∧
      (Interpreter.execInstr L labels "jne" [lbl] st₂ =
        Except.ok { st₂ with commandIndex := if a ≠ b then t else st₂.commandIndex + 1 }) ∧
      (Interpreter.execInstr L labels "jg" [lbl] st₂ =
        Except.ok { st₂ with commandIndex := if a > b then t else st₂.commandIndex + 1 }) ∧
      (Interpreter.execInstr L labels "jge" [lbl] st₂ =
        Except.ok { st₂ with commandIndex := if a ≥ b then t else st₂.commandIndex + 1 }) ∧
      (Interpreter.execInstr L labels "jl" [lbl] st₂ =
        Except.ok { st₂ with commandIndex := if a < b then t else st₂.commandIndex + 1 }) ∧
      (Interpreter.execInstr L labels "jle" [lbl] st₂ =
        Except.ok { st₂ with commandIndex := if a ≤ b then t else st₂.commandIndex + 1 }) := by
  refine ⟨?_, ?_⟩
  · show Interpreter.cmp st x y = _
    unfold Interpreter.cmp
    rw [hx, hy]
    rfl
  · intro st₂ hflag
    refine ⟨?_, ?_, ?_, ?_, ?_, ?_⟩
    · show Interpreter.je labels st₂ lbl = _
      by_cases hab : a = b
      · have h0 : a - b = 0 := by omega
        simp [Interpreter.je, Interpreter.pyTruthy, Interpreter.jmp, hflag, h0, hab, ht]
      · have h0 : ¬a - b = 0 := by omega
        simp [Interpreter.je, Interpreter.pyTruthy, Interpreter.jmp, Interpreter.inc_ci,
          hflag, h0, hab]
    · show Interpreter.jne labels st₂ lbl = _
      by_cases hab : a = b
      · have h0 : a - b = 0 := by omega
        simp [Interpreter.jne, Interpreter.pyTruthy, Interpreter.inc_ci, hflag, h0, hab]
      · have h0 : ¬a - b = 0 := by omega
        simp [Interpreter.jne, Interpreter.pyTruthy, Interpreter.jmp, hflag, h0, hab, ht]
    · show Interpreter.jg labels st₂ lbl = _
      by_cases hab : a > b
      · have h0 : a - b > 0 := by omega
        simp [Interpreter.jg, Interpreter.jmp, hflag, h0, hab, ht]
      · have h0 : ¬a - b > 0 := by omega
        simp [Interpreter.jg, Interpreter.inc_ci, hflag, h0, hab]
    · show Interpreter.jge labels st₂ lbl = _
      by_cases hab : a ≥ b
      · have h0 : a - b ≥ 0 := by omega
        simp [Interpreter.jge, Interpreter.jmp, hflag, h0, hab, ht]
      · have h0 : ¬a - b ≥ 0 := by omega
        simp [Interpreter.jge, Interpreter.inc_ci, hflag, h0, hab]
    · show Interpreter.jl labels st₂ lbl = _
      by_cases hab : a < b
      · have h0 : a - b < 0 := by omega
        simp [Interpreter.jl, Interpreter.jmp, hflag, h0, hab, ht]
      · have h0 : ¬a - b < 0 := by omega
        simp [Interpreter.jl, Interpreter.inc_ci, hflag, h0, hab]
    · show Interpreter.jle labels st₂ lbl = _
      by_cases hab : a ≤ b
      · have h0 : a - b ≤ 0 := by omega
        simp [Interpreter.jle, Interpreter.jmp, hflag, h0, hab, ht]
      · have h0 : ¬a - b ≤ 0 := by omega
        simp [Interpreter.jle, Interpreter.inc_ci, hflag, h0, hab]

/-- Witness for C3: `cmp 3, 7` sets the flag to `3 - 7`, after which `jl`
jumps to the label target 5. -/
theorem c3_witness :
    Interpreter.execInstr 0 [("l", 5)] "cmp" ["3", "7"] ⟨0, [], [], none, false, [], []⟩ =
      Except.ok ⟨1, [], [], some (3 - 7), false, [], []⟩ ∧
    Interpreter.execInstr 0 [("l", 5)] "jl" ["l"] ⟨1, [], [], some (3 - 7), false, [], []⟩ =
      Except.ok ⟨5, [], [], some (3 - 7), false, [], []⟩ := by
  have h := c3_cmp_jump_semantics 0 [("l", 5)] "3" "7" "l" 3 7 5
    ⟨0, [], [], none, false, [], []⟩ rfl rfl rfl
  exact ⟨h.1, (h.2 ⟨1, [], [], some (3 - 7), false, [], []⟩ rfl).2.2.2.2.1⟩

/-- **C4.**  `call lbl` pushes `pc + 1` onto the call stack and jumps to the
label target; `ret` pops exactly one frame and resumes at it (so the frame a
`call` pushed resumes execution right after that `call`, at any nesting
depth); `ret` on an empty call stack is the fatal underflow error, not a
normal step. -/
theorem c4_call_ret_discipline (L : Nat) (labels : List (String × Nat))
    (lbl : String) (t : Nat) (st : Interpreter.St)
    (ht : dictGet lbl labels = some t) :
    Interpreter.execInstr L labels "call" [lbl] st =
      Except.ok { st with commandIndex := t,
                          callStack := (st.commandIndex + 1) :: st.callStack } ∧
    (∀ (st₂ : Interpreter.St) (r : Nat) (s : List Nat), st₂.callStack = r :: s →
      Interpreter.execInstr L labels "ret" [] st₂ =
        Except.ok { st₂ with commandIndex := r, callStack := s }) ∧
    (∀ st₃ : Interpreter.St, st₃.callStack = [] →
      Interpreter.execInstr L labels "ret" [] st₃ = Except.error Err.indexError) := by
  refine ⟨?_, ?_, ?_⟩
  · show Interpreter.call labels st lbl = _
    simp [Interpreter.call, Interpreter.jmp, ht]
  · intro st₂ r s hcs
    show Interpreter.ret st₂ = _
    simp [Interpreter.ret, hcs]
  · intro st₃ hcs
    show Interpreter.ret st₃ = _
    simp [Interpreter.ret, hcs]

/-- Witness for C4: a `call` to target 7 from pc 2, a `ret` from the
resulting stack, and a `ret` on the empty stack. -/
theorem c4_witness :
    Interpreter.execInstr 0 [("f", 7)] "call" ["f"] ⟨2, [], [9], none, false, [], []⟩ =
      Except.ok ⟨7, [], [3, 9], none, false, [], []⟩ ∧
    Interpreter.execInstr 0 [("f", 7)] "ret" [] ⟨7, [], [3, 9], none, false, [], []⟩ =
      Except.ok ⟨3, [], [9], none, false, [], []⟩ ∧
    Interpreter.execInstr 0 [("f", 7)] "ret" [] ⟨3, [], [], none, false, [], []⟩ =
      Except.error Err.indexError := by
  have h := c4_call_ret_discipline 0 [("f", 7)] "f" 7 ⟨2, [], [9], none, false, [], []⟩ rfl
  exact ⟨h.1, h.2.1 ⟨7, [], [3, 9], none, false, [], []⟩ 3 [9] rfl,
    h.2.2 ⟨3, [], [], none, false, [], []⟩ rfl⟩

/-- Floor bounds of Python `//` (`Int.fdiv`) for a negative divisor: the
quotient `q` satisfies `b*(q+1) < a <= b*q`, i.e. `q` is still the rounding
of `a / b` toward negative infinity. -/

theorem fdiv_floor_neg (a b : Int) (hb : b < 0) :
    b * (Int.fdiv a b + 1) < a ∧ a ≤ b * Int.fdiv a b := by
  obtain ⟨n, rfl⟩ : ∃ n : Nat, b = Int.negSucc n := by
    rcases b with m | n
    · rw [Int.ofNat_eq_natCast] at hb; exfalso; omega
    · exact ⟨n, rfl⟩
  rcases a with m | m
  · cases m with
    | zero =>
      rw [show Int.fdiv (Int.ofNat 0) (Int.negSucc n) = 0 from rfl]
      rw [Int.negSucc_eq]
      rw [show Int.ofNat 0 = 0 from rfl]
      constructor
      · have : (0 : Int) ≤ (n : Int) := Int.natCast_nonneg n
        nlinarith
      · simp
    | succ m' =>
      rw [show Int.fdiv (Int.ofNat (Nat.succ m')) (Int.negSucc n) =
          Int.negSucc (m' / (n + 1)) from rfl]
      set q := m' / (n + 1) with hqdef
      set r := m' % (n + 1) with hrdef
      have hdm : (n + 1) * q + r = m' := Nat.div_add_mod m' (n + 1)
      have hlt : r < n + 1 := Nat.mod_lt m' (Nat.succ_pos n)
      have hdmI : ((n : Int) + 1) * (q : Int) + (r : Int) = (m' : Int) := by
        exact_mod_cast hdm
      have hltI : (r : Int) < (n : Int) + 1 := by exact_mod_cast hlt
      have hr0 : (0 : Int) ≤ (r : Int) := Int.natCast_nonneg r
      rw [Int.negSucc_eq n, Int.negSucc_eq q, Int.ofNat_eq_natCast, Nat.cast_succ]
      constructor
      · have key : -((n : Int) + 1) * (-((q : Int) + 1) + 1) = ((n : Int) + 1) * (q : Int) := by
          ring
        rw [key]
        linarith
      · have key : -((n : Int) + 1) * -((q : Int) + 1) =
            ((n : Int) + 1) * (q : Int) + ((n : Int) + 1) := by ring
        rw [key]
        linarith
  · rw [show Int.fdiv (Int.negSucc m) (Int.negSucc n) =
        Int.ofNat (Nat.succ m / Nat.succ n) from rfl]
    set q := Nat.succ m / Nat.succ n with hqdef
    set r := Nat.succ m % Nat.succ n with hrdef
    have hdm : (Nat.succ n) * q + r = Nat.succ m := Nat.div_add_mod (Nat.succ m) (Nat.succ n)
    have hlt : r < Nat.succ n := Nat.mod_lt (Nat.succ m) (Nat.succ_pos n)
    have hdmI : ((n : Int) + 1) * (q : Int) + (r : Int) = (m : Int) + 1 := by
      exact_mod_cast hdm
    have hltI : (r : Int) < (n : Int) + 1 := by exact_mod_cast hlt
    have hr0 : (0 : Int) ≤ (r : Int) := Int.natCast_nonneg r
    rw [Int.negSucc_eq n, Int.negSucc_eq m, Int.ofNat_eq_natCast]
    constructor
    · have key : -((n : Int) + 1) * ((q : Int) + 1) =
          -(((n : Int) + 1) * (q : Int)) - ((n : Int) + 1) := by ring
      rw [key]
      linarith
    · have key : -((n : Int) + 1) * (q : Int) = -(((n : Int) + 1) * (q : Int)) := by ring
      rw [key]
      linarith

/-- No instruction other than `cmp` ever writes the comparison flag, so in
a state reached without executing any `cmp` the flag still holds its initial
value. -/
theorem execInstr_cmpFlag {progLen : Nat} {labels : List (String × Nat)}
    {cmd : String} {args : List String} {st st' : Interpreter.St}
    (hne : ¬cmd = "cmp")
    (h : Interpreter.execInstr progLen labels cmd args st = Except.ok st') :
    st'.cmpFlag = st.cmpFlag := by
  unfold Interpreter.execInstr at h
  by_cases h1 : cmd = "mov"
  · rw [if_pos h1] at h
    unfold Interpreter.withArgs2 Interpreter.mov Interpreter.inc_ci at h
    repeat' split at h
    all_goals cases h
    all_goals rfl
  rw [if_neg h1] at h
  by_cases h2 : cmd = "inc"
  · rw [if_pos h2] at h
    unfold Interpreter.withArgs1 Interpreter.inc Interpreter.inc_ci at h
    repeat' split at h
    all_goals cases h
    all_goals rfl
  rw [if_neg h2] at h
  by_cases h3 : cmd = "dec"
  · rw [if_pos h3] at h
    unfold Interpreter.withArgs1 Interpreter.dec Interpreter.inc_ci at h
    repeat' split at h
    all_goals cases h
    all_goals rfl
  rw [if_neg h3] at h
  by_cases h4 : cmd = "add"
  · rw [if_pos h4] at h
    unfold Interpreter.withArgs2 Interpreter.add Interpreter.arith Interpreter.inc_ci at h
    repeat' split at h
    all_goals cases h
    all_goals rfl
  rw [if_neg h4] at h
  by_cases h5 : cmd = "sub"
  · rw [if_pos h5] at h
    unfold Interpreter.withArgs2 Interpreter.sub Interpreter.arith Interpreter.inc_ci at h
    repeat' split at h
    all_goals cases h
    all_goals rfl
  rw [if_neg h5] at h
  by_cases h6 : cmd = "mul"
  · rw [if_pos h6] at h
    unfold Interpreter.withArgs2 Interpreter.mul Interpreter.arith Interpreter.inc_ci at h
    repeat' split at h
    all_goals cases h
    all_goals rfl
  rw [if_neg h6] at h
  by_cases h7 : cmd = "div"
  · rw [if_pos h7] at h
    unfold Interpreter.withArgs2 Interpreter.div Interpreter.inc_ci at h
    repeat' split at h
    all_goals cases h
    all_goals rfl
  rw [if_neg h7] at h
  by_cases h8 : cmd = "jmp"
  · rw [if_pos h8] at h
    unfold Interpreter.withArgs1 Interpreter.jmp at h
    repeat' split at h
    all_goals cases h
    all_goals rfl
  rw [if_neg h8] at h
  rw [if_neg hne] at h
  by_cases h10 : cmd = "jne"
  · rw [if_pos h10] at h
    unfold Interpreter.withArgs1 Interpreter.jne Interpreter.jmp Interpreter.inc_ci at h
    repeat' split at h
    all_goals cases h
    all_goals rfl
  rw [if_neg h10] at h
  by_cases h11 : cmd = "je"
  · rw [if_pos h11] at h
    unfold Interpreter.withArgs1 Interpreter.je Interpreter.jmp Interpreter.inc_ci at h
    repeat' split at h
    all_goals cases h
    all_goals rfl
  rw [if_neg h11] at h
  by_cases h12 : cmd = "jge"
  · rw [if_pos h12] at h
    unfold Interpreter.withArgs1 Interpreter.jge Interpreter.jmp Interpreter.inc_ci at h
    repeat' split at h
    all_goals cases h
    all_goals rfl
  rw [if_neg h12] at h
  by_cases h13 : cmd = "jg"
  · rw [if_pos h13] at h
    unfold Interpreter.withArgs1 Interpreter.jg Interpreter.jmp Interpreter.inc_ci at h
    repeat' split at h
    all_goals cases h
    all_goals rfl
  rw [if_neg h13] at h
  by_cases h14 : cmd = "jle"
  · rw [if_pos h14] at h
    unfold Interpreter.withArgs1 Interpreter.jle Interpreter.jmp Interpreter.inc_ci at h
    repeat' split at h
    all_goals cases h
    all_goals rfl
  rw [if_neg h14] at h
  by_cases h15 : cmd = "jl"
  · rw [if_pos h15] at h
    unfold Interpreter.withArgs1 Interpreter.jl Interpreter.jmp Interpreter.inc_ci at h
    repeat' split at h
    all_goals cases h
    all_goals rfl
  rw [if_neg h15] at h
  by_cases h16 : cmd = "call"
  · rw [if_pos h16] at h
    unfold Interpreter.withArgs1 Interpreter.call Interpreter.jmp at h
    repeat' split at h
    all_goals cases h
    all_goals rfl
  rw [if_neg h16] at h
  by_cases h17 : cmd = "ret"
  · rw [if_pos h17] at h
    unfold Interpreter.withArgs0 Interpreter.ret at h
    repeat' split at h
    all_goals cases h
    all_goals rfl
  rw [if_neg h17] at h
  by_cases h18 : cmd = "msg"
  · rw [if_pos h18] at h
    unfold Interpreter.msg Interpreter.inc_ci at h
    cases h
    rfl
  rw [if_neg h18] at h
  by_cases h19 : cmd = "end"
  · rw [if_pos h19] at h
    unfold Interpreter.withArgs0 Interpreter.endCmd at h
    repeat' split at h
    all_goals cases h
    all_goals rfl
  rw [if_neg h19] at h
  by_cases h20 : cmd = ";" ∨ cmd = "_label" ∨ cmd = ""
  · rw [if_pos h20] at h
    cases h
    rfl
  rw [if_neg h20] at h
  cases h

/-- **C8.**  For a register holding an integer and an operand resolving to an
integer, `div r, v` stores the floor quotient (`Int.fdiv`, rounding toward
negative infinity) and advances the pointer by 1, and fails with the
division-by-zero error when the divisor resolves to 0; for a positive
divisor the stored quotient `q` is exactly the floor:
`b*q ≤ a < b*(q+1)`. -/
theorem c8_div_floor (L : Nat) (labels : List (String × Nat)) (r v : String)
    (a b : Int) (st : Interpreter.St)
    (ha : dictGet r st.registers = some (some a))
    (hb : Interpreter._get_value st.registers v = some b) :
    (b ≠ 0 → Interpreter.execInstr L labels "div" [r, v] st =
      Except.ok { st with commandIndex := st.commandIndex + 1,
                          registers := dictInsert r (some (Int.fdiv a b)) st.registers }) ∧
    (b = 0 → Interpreter.execInstr L labels "div" [r, v] st =
      Except.error Err.zeroDivisionError) ∧
    (0 < b → b * Int.fdiv a b ≤ a ∧ a < b * (Int.fdiv a b + 1)) ∧
    (b < 0 → b * (Int.fdiv a b + 1) < a ∧ a ≤ b * Int.fdiv a b) := by
  refine ⟨?_, ?_, ?_, ?_⟩
  · intro hbz
    show Interpreter.div st r v = _
    unfold Interpreter.div
    rw [ha, hb]
    simp [hbz, Interpreter.inc_ci]
  · intro hbz
    show Interpreter.div st r v = _
    unfold Interpreter.div
    rw [ha, hb]
    simp [hbz]
  · intro hb0
    rw [Int.fdiv_eq_ediv _ hb0.le]
    have h1 := Int.ediv_add_emod a b
    have h2 := Int.emod_nonneg a hb0.ne.symm
    have h3 := Int.emod_lt_of_pos a hb0
    constructor
    · nlinarith
    · nlinarith
  · intro hbneg
    exact fdiv_floor_neg a b hbneg

/-- Witness for C8: `-7 // 2 = -4` and `7 // -2 = -4` (floor, toward
negative infinity, for both divisor signs), the floor bounds at `7 // -2`,
and division by zero errors. -/
theorem c8_witness :
    Interpreter.execInstr 0 [] "div" ["a", "2"] ⟨0, [("a", some (-7))], [], none, false, [], []⟩ =
      Except.ok ⟨1, [("a", some (-4)), ("a", some (-7))], [], none, false, [], []⟩ ∧
    Interpreter.execInstr 0 [] "div" ["a", "0"] ⟨0, [("a", some (-7))], [], none, false, [], []⟩ =
      Except.error Err.zeroDivisionError ∧
    Interpreter.execInstr 0 [] "div" ["a", "-2"] ⟨0, [("a", some 7)], [], none, false, [], []⟩ =
      Except.ok ⟨1, [("a", some (-4)), ("a", some 7)], [], none, false, [], []⟩ ∧
    ((-2 : Int) * (Int.fdiv 7 (-2) + 1) < 7 ∧ (7 : Int) ≤ (-2) * Int.fdiv 7 (-2)) := by
  have h := c8_div_floor 0 [] "a" "2" (-7) 2 ⟨0, [("a", some (-7))], [], none, false, [], []⟩
    rfl rfl
  have h0 := c8_div_floor 0 [] "a" "0" (-7) 0 ⟨0, [("a", some (-7))], [], none, false, [], []⟩
    rfl rfl
  have hneg := c8_div_floor 0 [] "a" "-2" 7 (-2) ⟨0, [("a", some 7)], [], none, false, [], []⟩
    rfl rfl
  exact ⟨h.1 (by decide), h0.2.1 rfl, hneg.1 (by decide), hneg.2.2.2 (by decide)⟩

/-- **C9.**  With the comparison flag still holding its initial `None`
(no `cmp` executed yet), `je` to a defined label always jumps (`not None` is
truthy), `jne` always falls through to `pc + 1` (`None` is falsy), and each
of `jge`/`jg`/`jle`/`jl` raises the fatal `TypeError` (`None >= 0` is not a
branch in Python 3).  The final conjunct grounds the "no `cmp` yet executed"
reading: no successful instruction other than `cmp` writes the flag, so it
still holds the initial `None` in any such state. -/
theorem c9_uninitialized_flag (L : Nat) (labels : List (String × Nat))
    (lbl : String) (t : Nat) (st : Interpreter.St)
    (hflag : st.cmpFlag = none) (ht : dictGet lbl labels = some t) :
    Interpreter.execInstr L labels "je" [lbl] st =
      Except.ok { st with commandIndex := t } ∧
    Interpreter.execInstr L labels "jne" [lbl] st =
      Except.ok { st with commandIndex := st.commandIndex + 1 } ∧
    Interpreter.execInstr L labels "jge" [lbl] st = Except.error Err.typeError ∧
    Interpreter.execInstr L labels "jg" [lbl] st = Except.error Err.typeError ∧
    Interpreter.execInstr L labels "jle" [lbl] st = Except.error Err.typeError ∧
    Interpreter.execInstr L labels "jl" [lbl] st = Except.error Err.typeError ∧
    (∀ (cmd : String) (args : List String) (st₄ st₅ : Interpreter.St), ¬cmd = "cmp" →
      st₄.cmpFlag = none →
      Interpreter.execInstr L labels cmd args st₄ = Except.ok st₅ →
      st₅.cmpFlag = none) := by
  refine ⟨?_, ?_, ?_, ?_, ?_, ?_, ?_⟩
  · show Interpreter.je labels st lbl = _
    simp [Interpreter.je, Interpreter.pyTruthy, Interpreter.jmp, hflag, ht]
  · show Interpreter.jne labels st lbl = _
    simp [Interpreter.jne, Interpreter.pyTruthy, Interpreter.inc_ci, hflag]
  · show Interpreter.jge labels st lbl = _
    simp [Interpreter.jge, hflag]
  · show Interpreter.jg labels st lbl = _
    simp [Interpreter.jg, hflag]
  · show Interpreter.jle labels st lbl = _
    simp [Interpreter.jle, hflag]
  · show Interpreter.jl labels st lbl = _
    simp [Interpreter.jl, hflag]
  · intro cmd args st₄ st₅ hnc hf4 hexec
    exact (execInstr_cmpFlag hnc hexec).trans hf4

/-- Witness for C9 at a concrete fresh state: `je` jumps, `jne` falls
through, all four ordered jumps raise, and a non-`cmp` instruction (`mov`)
leaves the `None` flag in place. -/
theorem c9_witness :
    Interpreter.execInstr 0 [("l", 4)] "je" ["l"] ⟨0, [], [], none, false, [], []⟩ =
      Except.ok ⟨4, [], [], none, false, [], []⟩ ∧
    Interpreter.execInstr 0 [("l", 4)] "jne" ["l"] ⟨0, [], [], none, false, [], []⟩ =
      Except.ok ⟨1, [], [], none, false, [], []⟩ ∧
    Interpreter.execInstr 0 [("l", 4)] "jge" ["l"] ⟨0, [], [], none, false, [], []⟩ =
      Except.error Err.typeError ∧
    Interpreter.execInstr 0 [("l", 4)] "jg" ["l"] ⟨0, [], [], none, false, [], []⟩ =
      Except.error Err.typeError ∧
    Interpreter.execInstr 0 [("l", 4)] "jle" ["l"] ⟨0, [], [], none, false, [], []⟩ =
      Except.error Err.typeError ∧
    Interpreter.execInstr 0 [("l", 4)] "jl" ["l"] ⟨0, [], [], none, false, [], []⟩ =
      Except.error Err.typeError ∧
    (⟨1, [("a", some 2)], [], none, false, [], []⟩ : Interpreter.St).cmpFlag = none := by
  have h := c9_uninitialized_flag 0 [("l", 4)] "l" 4 ⟨0, [], [], none, false, [], []⟩ rfl rfl
  exact ⟨h.1, h.2.1, h.2.2.1, h.2.2.2.1, h.2.2.2.2.1, h.2.2.2.2.2.1,
    h.2.2.2.2.2.2 "mov" ["a", "2"] ⟨0, [], [], none, false, [], []⟩
      ⟨1, [("a", some 2)], [], none, false, [], []⟩ (by decide) rfl rfl⟩

/-- **C5 counterexample.**  Reading the never-written register `x` is not a
failure: `_get_value` returns Python `None` (no exception), and the program
`msg x / end` runs to successful completion printing `"None"` — contradicting
the claim that the resolver fails with a lookup failure on a never-written
register. -/
theorem c5_counterexample :
    assembler_interpreter "msg x\nend" 5 = some (Except.ok (Sum.inl "None")) ∧
    Interpreter._get_value [] "x" = none :=
  ⟨rfl, rfl⟩

/-- **C5 (amended).**  A token that parses as an integer literal resolves to
that integer; any other token resolves via `registers.get`, yielding the
`None` sentinel (not 0, and not an exception) when the register was never
written.  The `None` only becomes a fatal `TypeError` in arithmetic or
comparison contexts (e.g. `cmp`), while `msg` renders it as the string
`"None"`. -/
theorem c5_resolver_semantics :
    (∀ (regs : List (String × Option Int)) (tok : String) (n : Int),
      pyInt? tok = some n → Interpreter._get_value regs tok = some n) ∧
    (∀ (regs : List (String × Option Int)) (tok : String),
      pyInt? tok = none → Interpreter._get_value regs tok = (dictGet tok regs).join) ∧
    (∀ (L : Nat) (labels : List (String × Nat)) (x y : String) (st : Interpreter.St),
      Interpreter._get_value st.registers x = none →
      Interpreter.execInstr L labels "cmp" [x, y] st = Except.error Err.typeError) ∧
    (∀ (st : Interpreter.St) (r : String),
      ¬r.toList.head? = some quoteChar →
      Interpreter._get_value st.registers r = none →
      Interpreter.msgFragment st.registers r = "None") := by
  refine ⟨?_, ?_, ?_, ?_⟩
  · intro regs tok n h
    unfold Interpreter._get_value
    rw [h]
  · intro regs tok h
    unfold Interpreter._get_value
    rw [h]
  · intro L labels x y st h
    show Interpreter.cmp st x y = _
    unfold Interpreter.cmp
    rw [h]
  · intro st r hq h
    unfold Interpreter.msgFragment
    rw [if_neg hq, h]
    rfl

/-- Witness for C5: a literal resolves to itself, a written register to its
value, an unwritten one to `None`, rendered `"None"` by `msg`. -/
theorem c5_witness :
    Interpreter._get_value [("a", some 4)] "-12" = some (-12) ∧
    Interpreter._get_value [("a", some 4)] "a" = some 4 ∧
    Interpreter._get_value [("a", some 4)] "b" = none ∧
    Interpreter.msgFragment [("a", some 4)] "b" = "None" := by
  refine ⟨c5_resolver_semantics.1 _ "-12" (-12) rfl, ?_, ?_, ?_⟩
  · rw [c5_resolver_semantics.2.1 [("a", some 4)] "a" rfl]
    rfl
  · rw [c5_resolver_semantics.2.1 [("a", some 4)] "b" rfl]
    rfl
  · exact c5_resolver_semantics.2.2.2 ⟨0, [("a", some 4)], [], none, false, [], []⟩ "b"
      (by decide) rfl

/-- **C7 counterexample.**  An unterminated quote is not a fatal parse
failure: the tokenizer silently appends the missing closing quote (the line
`msg 'abc` tokenizes to the well-formed operand `'abc'` and the program runs
to success), and a trailing dangling `-` tokenizes to the operand `-`. -/
theorem c7_counterexample :
    Interpreter.parse_instruction "msg 'abc" = ("msg", ["'abc'"]) ∧
    Interpreter.parse_instruction "mov a, -" = ("mov", ["a", "-"]) ∧
    assembler_interpreter "msg 'abc\nend" 9 = some (Except.ok (Sum.inl "abc")) :=
  ⟨rfl, rfl, rfl⟩

/-- The operand scanner returns the accumulated operands on empty input at
any step bound. -/
theorem scanArgsFuel_nil (fuel : Nat) (args : List String) :
    Interpreter.scanArgsFuel fuel [] args = args.reverse := by
  cases fuel <;> rfl

/-- **C7 (amended).**  Tokenization never fails on malformed operands: a
quote that is never closed before the end of the line produces the remaining
characters wrapped in a *closed* quoted token (the scanner's `else` arm
appends the terminating quote whether or not one was read), and a dangling
`-` with no following digits produces the bare token `-`. -/
theorem c7_tokenizer_total :
    (∀ (content : List Char) (acc : List String), quoteChar ∉ content →
      Interpreter.scanArgs (quoteChar :: content) acc =
        (String.mk (quoteChar :: content ++ [quoteChar]) :: acc).reverse) ∧
    (∀ acc : List String,
      Interpreter.scanArgs ['-'] acc = (String.mk ['-'] :: acc).reverse) := by
  constructor
  · intro content acc hq
    have hall : ∀ c ∈ content, (c ≠ quoteChar : Bool) = true := by
      intro c hc
      simp only [ne_eq, decide_eq_true_eq]
      intro hcq
      exact hq (hcq ▸ hc)
    have htake : content.takeWhile (fun d => d ≠ quoteChar) = content :=
      List.takeWhile_eq_self_iff.mpr hall
    have hdrop : content.dropWhile (fun d => d ≠ quoteChar) = [] :=
      List.dropWhile_eq_nil_iff.mpr hall
    show Interpreter.scanArgsFuel (quoteChar :: content).length (quoteChar :: content) acc = _
    rw [List.length_cons]
    rw [show Interpreter.scanArgsFuel (content.length + 1) (quoteChar :: content) acc =
      Interpreter.scanArgsFuel content.length
        ((content.dropWhile (fun d => d ≠ quoteChar)).drop 1)
        (String.mk (quoteChar :: content.takeWhile (fun d => d ≠ quoteChar) ++ [quoteChar])
          :: acc) from rfl]
    rw [htake, hdrop]
    show Interpreter.scanArgsFuel content.length [] _ = _
    rw [scanArgsFuel_nil]
  · intro acc
    rfl

/-- Witness for C7: the unterminated-quote arm applied to the content
`abc`. -/
theorem c7_witness :
    Interpreter.scanArgs (quoteChar :: ['a', 'b', 'c']) [] =
      [String.mk (quoteChar :: ['a', 'b', 'c'] ++ [quoteChar])] ∧
    Interpreter.scanArgs ['-'] ["x"] = ["x", String.mk ['-']] := by
  constructor
  · exact c7_tokenizer_total.1 ['a', 'b', 'c'] [] (by decide)
  · exact c7_tokenizer_total.2 ["x"]

/-- A `valid_symbol` character is not whitespace. -/
theorem valid_not_space {c : Char} (h : validSymbol c = true) : isPySpace c = false := by
  by_contra hne
  rw [Bool.not_eq_false] at hne
  unfold isPySpace at hne
  simp only [Bool.or_eq_true, decide_eq_true_eq] at hne
  rcases hne with ((((h1 | h1) | h1) | h1) | h1) | h1 <;> subst h1 <;>
    exact absurd h (by decide)

theorem dropWhile_all_false {p : Char → Bool} {l : List Char}
    (h : ∀ c ∈ l, p c = false) : l.dropWhile p = l := by
  cases l with
  | nil => rfl
  | cons c rest =>
    rw [List.dropWhile_cons, h c (List.mem_cons_self c rest)]
    simp

/-- `str.strip()` is the identity on a line without boundary whitespace. -/
theorem pyStripList_eq_self {l : List Char} (h : ∀ c ∈ l, isPySpace c = false) :
    pyStripList l = l := by
  unfold pyStripList
  rw [dropWhile_all_false h,
    dropWhile_all_false (fun c hc => h c (List.mem_reverse.mp hc))]
  exact List.reverse_reverse l

/-- One step of the command loop: the scanned character is followed by `:`,
so the line is a label definition. -/
theorem scanCommand_step_colon {c : Char} {rest' : List Char} {acc : List Char}
    (hc : validSymbol c = true) :
    Interpreter.scanCommand (c :: ':' :: rest') acc =
      Sum.inl ("_label", [String.mk (c :: acc).reverse]) := by
  rw [Interpreter.scanCommand]
  simp [hc]

/-- One step of the command loop: the next character is not `:`, keep
scanning. -/
theorem scanCommand_step_cont {c d : Char} {rest' : List Char} {acc : List Char}
    (hc : validSymbol c = true) (hd : ¬d = ':') :
    Interpreter.scanCommand (c :: d :: rest') acc =
      Interpreter.scanCommand (d :: rest') (c :: acc) := by
  conv_lhs => rw [Interpreter.scanCommand]
  simp [hc, hd]

/-- The command loop on a nonempty all-valid identifier directly followed by
`:` recognizes a label definition naming the whole identifier. -/
theorem scanCommand_label : ∀ (l : List Char) (acc : List Char), l ≠ [] →
    (∀ c ∈ l, validSymbol c = true) →
    Interpreter.scanCommand (l ++ [':']) acc =
      Sum.inl ("_label", [String.mk (acc.reverse ++ l)]) := by
  intro l
  induction l with
  | nil => intro acc h _; exact absurd rfl h
  | cons c rest ih =>
    intro acc _ hall
    have hc : validSymbol c = true := hall c (List.mem_cons_self c rest)
    cases rest with
    | nil =>
      rw [List.cons_append, List.nil_append, scanCommand_step_colon hc]
      simp
    | cons c₂ rest₂ =>
      have hc₂ : validSymbol c₂ = true := hall c₂ (by simp)
      have hne : ¬c₂ = ':' := by
        intro he; rw [he] at hc₂; exact absurd hc₂ (by decide)
      rw [List.cons_append, List.cons_append, scanCommand_step_cont hc hne,
        ← List.cons_append]
      rw [ih (c :: acc) (by simp) (fun d hd => hall d (List.mem_cons_of_mem c hd))]
      simp

/-- If no instruction of `parsed` is a `_label` whose name is `l`, scanning
`parsed` leaves the binding of `l` unchanged. -/
theorem parse_labelsAux_not_found : ∀ (parsed : List (String × List String)) (idx : Nat)
    (acc labels : List (String × Nat)) (l : String),
    Interpreter.parse_labelsAux parsed idx acc = Except.ok labels →
    (∀ (j : Nat) (e : String × List String), parsed.get? j = some e →
      ¬(e.1 = "_label" ∧ e.2.head? = some l)) →
    dictGet l labels = dictGet l acc := by
  intro parsed
  induction parsed with
  | nil =>
    intro idx acc labels l h _
    cases h
    rfl
  | cons ins rest ih =>
    intro idx acc labels l h hnone
    obtain ⟨cmd, args⟩ := ins
    have hshift : ∀ (j : Nat) (e : String × List String), rest.get? j = some e →
        ¬(e.1 = "_label" ∧ e.2.head? = some l) :=
      fun j e hj => hnone (j + 1) e (by simpa using hj)
    by_cases hcmd : cmd = "_label"
    · cases args with
      | nil =>
        rw [Interpreter.parse_labelsAux, if_pos hcmd] at h
        cases h
      | cons a args' =>
        rw [Interpreter.parse_labelsAux, if_pos hcmd] at h
        rw [ih (idx + 1) _ labels l h hshift]
        have hne : ¬a = l := by
          have h0 := hnone 0 (cmd, a :: args') rfl
          simp [hcmd] at h0
          exact h0
        simp [dictInsert, dictGet, hne]
    · cases args with
      | nil =>
        rw [Interpreter.parse_labelsAux, if_neg hcmd] at h
        exact ih (idx + 1) acc labels l h hshift
      | cons a args' =>
        rw [Interpreter.parse_labelsAux, if_neg hcmd] at h
        exact ih (idx + 1) acc labels l h hshift

/-- If position `i` of `parsed` is a `_label` naming `l` and no later
position is, the scan binds `l` to `idx + i + 1`. -/
theorem parse_labelsAux_found : ∀ (parsed : List (String × List String)) (idx : Nat)
    (acc labels : List (String × Nat)) (i : Nat) (l : String),
    Interpreter.parse_labelsAux parsed idx acc = Except.ok labels →
    parsed.get? i = some ("_label", [l]) →
    (∀ (j : Nat) (e : String × List String), i < j → parsed.get? j = some e →
      ¬(e.1 = "_label" ∧ e.2.head? = some l)) →
    dictGet l labels = some (idx + i + 1) := by
  intro parsed
  induction parsed with
  | nil => intro idx acc labels i l _ hget _; simp at hget
  | cons ins rest ih =>
    intro idx acc labels i l h hget hafter
    obtain ⟨cmd, args⟩ := ins
    cases i with
    | zero =>
      simp only [List.get?_cons_zero, Option.some.injEq, Prod.mk.injEq] at hget
      obtain ⟨hcmd, hargs⟩ := hget
      subst hcmd
      subst hargs
      rw [Interpreter.parse_labelsAux, if_pos rfl] at h
      rw [parse_labelsAux_not_found rest (idx + 1) _ labels l h
        (fun j e hj => hafter (j + 1) e (by omega) (by simpa using hj))]
      simp [dictInsert, dictGet]
    | succ i' =>
      simp only [List.get?_cons_succ] at hget
      have hshift : ∀ (j : Nat) (e : String × List String), i' < j → rest.get? j = some e →
          ¬(e.1 = "_label" ∧ e.2.head? = some l) :=
        fun j e hj hg => hafter (j + 1) e (by omega) (by simpa using hg)
      by_cases hcmd : cmd = "_label"
      · cases args with
        | nil =>
          rw [Interpreter.parse_labelsAux, if_pos hcmd] at h
          cases h
        | cons a args' =>
          rw [Interpreter.parse_labelsAux, if_pos hcmd] at h
          rw [ih (idx + 1) _ labels i' l h hget hshift]
          congr 1
          omega
      · cases args with
        | nil =>
          rw [Interpreter.parse_labelsAux, if_neg hcmd] at h
          rw [ih (idx + 1) acc labels i' l h hget hshift]
          congr 1
          omega
        | cons a args' =>
          rw [Interpreter.parse_labelsAux, if_neg hcmd] at h
          rw [ih (idx + 1) acc labels i' l h hget hshift]
          congr 1
          omega

/-- **C6.**  Round trip of label resolution: tokenizing an identifier line
`foo:` yields a `_label` instruction whose single operand is `foo`; if line
index `i` holds such a `_label` and it is the last definition of that name
in source order (silent overwrite: a later definition would win), the label
table maps the name to `i + 1`, the index just after the label line; and
`jmp`/`call` to a mapped label set the program counter to that index. -/
theorem c6_label_roundtrip :
    (∀ name : List Char, name ≠ [] → (∀ c ∈ name, validSymbol c = true) →
      Interpreter.parse_instruction (String.mk (name ++ [':'])) =
        ("_label", [String.mk name])) ∧
    (∀ (parsed : List (String × List String)) (labels : List (String × Nat))
        (i : Nat) (l : String),
      Interpreter.parse_labels parsed = Except.ok labels →
      parsed.get? i = some ("_label", [l]) →
      (∀ (j : Nat) (e : String × List String), i < j → parsed.get? j = some e →
        ¬(e.1 = "_label" ∧ e.2.head? = some l)) →
      dictGet l labels = some (i + 1)) ∧
    (∀ (L : Nat) (labels : List (String × Nat)) (lbl : String) (t : Nat)
        (st : Interpreter.St), dictGet lbl labels = some t →
      Interpreter.execInstr L labels "jmp" [lbl] st =
        Except.ok { st with commandIndex := t } ∧
      Interpreter.execInstr L labels "call" [lbl] st =
        Except.ok { st with commandIndex := t,
                            callStack := (st.commandIndex + 1) :: st.callStack }) := by
  refine ⟨?_, ?_, ?_⟩
  · intro name hne hall
    unfold Interpreter.parse_instruction
    have hsp : ∀ c ∈ name ++ [':'], isPySpace c = false := by
      intro c hc
      rcases List.mem_append.mp hc with h | h
      · exact valid_not_space (hall c h)
      · rw [List.mem_singleton.mp h]; rfl
    rw [show (String.mk (name ++ [':'])).toList = name ++ [':'] from rfl,
      pyStripList_eq_self hsp]
    cases name with
    | nil => exact absurd rfl hne
    | cons c rest =>
      have hc := hall c (List.mem_cons_self c rest)
      have hsc := scanCommand_label (c :: rest) [] hne hall
      rw [List.cons_append] at hsc ⊢
      rw [Interpreter.parseOuter, hsc]
      simp [hc]
  · intro parsed labels i l h hget hafter
    have := parse_labelsAux_found parsed 0 [] labels i l h hget hafter
    simpa using this
  · intro L labels lbl t st ht
    constructor
    · show Interpreter.jmp labels st lbl = _
      simp [Interpreter.jmp, ht]
    · show Interpreter.call labels st lbl = _
      simp [Interpreter.call, Interpreter.jmp, ht]

/-- Witness for C6: the line `foo:` tokenizes to a label instruction; in a
program where `foo` is defined at indices 0 and 2, the table maps `foo` to 3
(last definition wins), and `jmp foo` jumps there. -/
theorem c6_witness :
    Interpreter.parse_instruction "foo:" = ("_label", ["foo"]) ∧
    dictGet "foo" [("foo", 3), ("foo", 1)] = some 3 ∧
    Interpreter.execInstr 4 [("foo", 3), ("foo", 1)] "jmp" ["foo"]
        ⟨0, [], [], none, false, [], []⟩ =
      Except.ok ⟨3, [], [], none, false, [], []⟩ := by
  refine ⟨c6_label_roundtrip.1 ['f', 'o', 'o'] (by decide) (by decide), ?_, ?_⟩
  · have := c6_label_roundtrip.2.1
      [("_label", ["foo"]), ("mov", ["a", "1"]), ("_label", ["foo"]), ("jmp", ["foo"])]
      [("foo", 3), ("foo", 1)] 2 "foo" rfl rfl ?_
    · exact this
    · intro j e hj hget
      have hlt : j < 4 := by
        by_contra hge
        rw [List.get?_eq_none.mpr (by simp; omega)] at hget
        cases hget
      have hj3 : j = 3 := by omega
      subst hj3
      simp only [List.get?_cons_succ, List.get?_cons_zero, Option.some.injEq] at hget
      subst hget
      simp
  · exact (c6_label_roundtrip.2.2 4 [("foo", 3), ("foo", 1)] "foo" 3
      ⟨0, [], [], none, false, [], []⟩ rfl).1

/-- The kata operand loop, with its never-reassigned `comment_found` flag at
its initial `False`, computes exactly the part_2 operand loop. -/
theorem kataScanArgsFuel_eq : ∀ (fuel : Nat) (cs : List Char) (args : List String),
    Kata.kataScanArgsFuel false fuel cs args = Interpreter.scanArgsFuel fuel cs args := by
  intro fuel
  induction fuel with
  | zero => intro cs args; cases cs <;> rfl
  | succ n ih =>
    intro cs args
    cases cs with
    | nil => rfl
    | cons c rest =>
      rw [Kata.kataScanArgsFuel, Interpreter.scanArgsFuel]
      split_ifs <;> first | rfl | apply ih

/-- The two outer tokenizer loops agree on every line except one whose
command scans to the literal text `_label` with no colon, where the kata
`if command != '_label'` guard skips the operand loop. -/
theorem kataParseOuter_agree : ∀ cs : List Char,
    Kata.kataParseOuter cs = Interpreter.parseOuter cs ∨
    ((Interpreter.parseOuter cs).1 = "_label" ∧
      Kata.kataParseOuter cs = ("_label", [])) := by
  intro cs
  induction cs with
  | nil => left; rfl
  | cons c rest ih =>
    by_cases hv : validSymbol c
    · rcases hsc : Interpreter.scanCommand (c :: rest) [] with r | ⟨cmdAcc, after⟩
      · left
        rw [Kata.kataParseOuter, Interpreter.parseOuter, hsc]
        simp [hv]
      · by_cases hlab : String.mk cmdAcc.reverse = "_label"
        · right
          constructor
          · rw [Interpreter.parseOuter, hsc]
            simp [hv, hlab]
          · rw [Kata.kataParseOuter, hsc]
            simp [hv, hlab]
        · left
          rw [Kata.kataParseOuter, Interpreter.parseOuter, hsc]
          simp only [hv, if_true, hlab, ne_eq, not_false_iff, if_pos]
          simp [hv, hlab, Kata.kataScanArgs, Interpreter.scanArgs, kataScanArgsFuel_eq]
    · by_cases hsemi : c = ';'
      · left
        subst hsemi
        rw [Kata.kataParseOuter, Interpreter.parseOuter]
        simp [show validSymbol ';' = false from rfl]
      · rw [Kata.kataParseOuter, Interpreter.parseOuter]
        simp only [hv, Bool.false_eq_true, if_false, hsemi]
        simpa [hv, hsemi] using ih

/-- **C10 counterexample.**  On the line `_label x` the two tokenizers
disagree — the part_2 variant returns the operand `x`, the kata variant's
guard drops it — and consequently the two interpreters disagree on the
program `_label x`: part_2 returns the `-1` sentinel, the kata variant
raises `IndexError` in `parse_labels` (`args[0]` on `[]`). -/
theorem c10_counterexample :
    Interpreter.parse_instruction "_label x" = ("_label", ["x"]) ∧
    Kata.parse_instruction "_label x" = ("_label", []) ∧
    assembler_interpreter "_label x" 5 = some (Except.ok (Sum.inr (-1))) ∧
    kata_assembler_interpreter "_label x" 5 = some (Except.error Err.indexError) :=
  ⟨rfl, rfl, rfl, rfl⟩

/-- **C10 (amended).**  For every input line the two `parse_instruction`
variants return the same `(command, args)` pair, *except* when the scanned
command is the literal text `_label` (not produced by a `name:` label
definition, which both handle identically): there the kata variant returns
`("_label", [])`, dropping the operands, and the two `assembler_interpreter`
functions can then return different results (see the counterexample). -/
theorem c10_parsers_agree_except_label : ∀ s : String,
    Kata.parse_instruction s = Interpreter.parse_instruction s ∨
    ((Interpreter.parse_instruction s).1 = "_label" ∧
      Kata.parse_instruction s = ("_label", [])) := by
  intro s
  exact kataParseOuter_agree (pyStripList s.toList)

/-- Witness for C10 on an ordinary line, where the two tokenizers agree. -/
theorem c10_witness :
    Kata.parse_instruction "mov a, 5" = Interpreter.parse_instruction "mov a, 5" ∨
    ((Interpreter.parse_instruction "mov a, 5").1 = "_label" ∧
      Kata.parse_instruction "mov a, 5" = ("_label", [])) :=
  c10_parsers_agree_except_label "mov a, 5"
